import Mathlib

/-!
Verification development for the particle-system repository
(ParticleSystemFactory.js, SDFGenerator.js, GLTFLoaderService.js).

Geometry is modelled over the real numbers: every JavaScript float
operation of the source is translated to the corresponding exact real
operation.  The discrete control flow of the SDF generator (slice loop,
cancellation flag, progress throttling) is modelled as executable
functions over `Nat`/`Rat`/`Bool`.
-/

/-! ## Vectors (THREE.Vector3) -/

/-- A world-space vector, mirroring `THREE.Vector3`. -/
structure Vec3 where
  x : ℝ
  y : ℝ
  z : ℝ

namespace Vec3

noncomputable instance : Add Vec3 := ⟨fun a b => ⟨a.x + b.x, a.y + b.y, a.z + b.z⟩⟩

noncomputable instance : Sub Vec3 := ⟨fun a b => ⟨a.x - b.x, a.y - b.y, a.z - b.z⟩⟩

noncomputable instance : SMul ℝ Vec3 := ⟨fun c v => ⟨c * v.x, c * v.y, c * v.z⟩⟩

instance : Zero Vec3 := ⟨⟨0, 0, 0⟩⟩

end Vec3

/-- Dot product, mirroring `Vector3.dot`. -/
noncomputable def dot3 (a b : Vec3) : ℝ := a.x * b.x + a.y * b.y + a.z * b.z

/-- Cross product, mirroring `Vector3.crossVectors`. -/
noncomputable def cross3 (a b : Vec3) : Vec3 :=
  ⟨a.y * b.z - a.z * b.y, a.z * b.x - a.x * b.z, a.x * b.y - a.y * b.x⟩

/-- Squared length of a vector. -/
noncomputable def normSq (v : Vec3) : ℝ := v.x * v.x + v.y * v.y + v.z * v.z

/-- Length, mirroring `Vector3.length`. -/
noncomputable def norm3 (v : Vec3) : ℝ := Real.sqrt (normSq v)

/-- Distance between two points, mirroring `Vector3.distanceTo`. -/
noncomputable def dist3 (a b : Vec3) : ℝ := norm3 (a - b)

/-- Squared distance, mirroring `Vector3.distanceToSquared`. -/
noncomputable def distSq (a b : Vec3) : ℝ := normSq (a - b)

/-- Normalization, mirroring `Vector3.normalize`, which divides by
`this.length() || 1`: the zero vector is left unchanged. -/
noncomputable def normalize3 (v : Vec3) : Vec3 :=
  (if norm3 v = 0 then 1 else norm3 v)⁻¹ • v


/-! ## Mesh model and plane-frame derivation (ParticleSystemFactory._buildSystem) -/

open scoped Classical

/-- A mesh as consumed by `_buildSystem`: local-space vertex positions
(`geometry.attributes.position`) together with the world transform
(`applyMatrix4(plane.matrixWorld)`), abstracted as a point map. -/
structure Mesh where
  verts : List Vec3
  world : Vec3 → Vec3

/-- World-space vertices of the mesh. -/
def worldVerts (m : Mesh) : List Vec3 := m.verts.map m.world

/-- Vertex `A`: index 0 of the world-space vertex list. -/
noncomputable def vertA (m : Mesh) : Vec3 := (worldVerts m).getD 0 0

/-- Vertex `B`: index 1 of the world-space vertex list. -/
noncomputable def vertB (m : Mesh) : Vec3 := (worldVerts m).getD 1 0

/-- The scan condition of the `vC` loop:
`tmp.distanceTo(vA) > 1e-6 && tmp.distanceTo(vB) > 1e-6`. -/
noncomputable def farPred (vA vB p : Vec3) : Prop :=
  1e-6 < dist3 p vA ∧ 1e-6 < dist3 p vB

/-- The `for (let i = 2; ...)` scan: first vertex far from both `A` and `B`. -/
noncomputable def chooseCAux (vA vB : Vec3) : List Vec3 → Option Vec3
  | [] => none
  | p :: rest => if farPred vA vB p then some p else chooseCAux vA vB rest

/-- Componentwise max (`Box3.expandByPoint` accumulation). -/
noncomputable def vmax (a b : Vec3) : Vec3 := ⟨max a.x b.x, max a.y b.y, max a.z b.z⟩

/-- Componentwise min. -/
noncomputable def vmin (a b : Vec3) : Vec3 := ⟨min a.x b.x, min a.y b.y, min a.z b.z⟩

/-- Max corner of the axis-aligned bounding box of a vertex list
(`geometry.computeBoundingBox(); geometry.boundingBox.max`). -/
noncomputable def bboxMax : List Vec3 → Vec3
  | [] => 0
  | v :: rest => rest.foldl vmax v

/-- Min corner of the axis-aligned bounding box of a vertex list. -/
noncomputable def bboxMin : List Vec3 → Vec3
  | [] => 0
  | v :: rest => rest.foldl vmin v

/-- Center of the bounding box (`Box3.getCenter`). -/
noncomputable def bboxCenter (l : List Vec3) : Vec3 :=
  (1 / 2 : ℝ) • (bboxMin l + bboxMax l)

/-- Vertex `C`: the first scanned far vertex; if none exists, the fallback
`new THREE.Vector3(box.max.x, box.max.y, box.max.z).applyMatrix4(plane.matrixWorld)`,
i.e. the LOCAL bounding-box max corner pushed through the world matrix. -/
noncomputable def chooseC (m : Mesh) : Vec3 :=
  (chooseCAux (vertA m) (vertB m) ((worldVerts m).drop 2)).getD (m.world (bboxMax m.verts))

/-- The plane frame produced at engine construction. -/
structure Frame where
  origin : Vec3
  basisX : Vec3
  basisY : Vec3
  basisZ : Vec3
  width : ℝ
  height : ℝ

/-- Minimum of a nonempty list of reals (the `minX`-style accumulators). -/
noncomputable def listMin : List ℝ → ℝ
  | [] => 0
  | r :: rest => rest.foldl min r

/-- Maximum of a nonempty list of reals. -/
noncomputable def listMax : List ℝ → ℝ
  | [] => 0
  | r :: rest => rest.foldl max r

/-- The plane-frame computation of `_buildSystem` (lines 152-190):
basis from `A`, `B`, `C`, origin from the local bounding-box center pushed
to world space, extents from projections of every world vertex onto
`basisX`/`basisZ`. -/
noncomputable def buildFrame (m : Mesh) : Frame :=
  let ws := worldVerts m
  let vA := vertA m
  let vB := vertB m
  let vC := chooseC m
  let planeOffset := m.world (bboxCenter m.verts)
  let edgeAB := vB - vA
  let edgeAC := vC - vA
  let bX := normalize3 edgeAB
  let bY := normalize3 (cross3 edgeAB edgeAC)
  let bZ := normalize3 (cross3 bY bX)
  let xs := ws.map (fun v => dot3 v bX)
  let zs := ws.map (fun v => dot3 v bZ)
  { origin := planeOffset
    basisX := bX
    basisY := bY
    basisZ := bZ
    width := max 0.0001 (listMax xs - listMin xs)
    height := max 0.0001 (listMax zs - listMin zs) }

/-! ## Particle seeding (ParticleSystemFactory._buildSystem, lines 192-237) -/

/-- One seeded particle position: `planeOffset + basisX*rx + basisZ*rz +
basisY*(baseLift + jitter)`, with `r1 r2 r3` the three `Math.random()` draws. -/
noncomputable def seedPosition (planeOffset bX bY bZ : Vec3)
    (width height spawnScale r1 r2 r3 : ℝ) : Vec3 :=
  let halfW := width * 0.5 * spawnScale
  let halfH := height * 0.5 * spawnScale
  let baseLift := max 0.01 (0.02 * spawnScale)
  let rx := (r1 * 2.0 - 1.0) * halfW
  let rz := (r2 * 2.0 - 1.0) * halfH
  planeOffset + rx • bX + rz • bZ + (baseLift + (r3 - 0.5) * 0.012) • bY

/-- Seeded freshness channel: `0.6 + Math.random() * 0.2`. -/
noncomputable def seedFreshness (r : ℝ) : ℝ := 0.6 + r * 0.2

/-- One seeded particle velocity before the speed clamp:
`basisX*sx + basisY*sy + basisZ*sz`. -/
noncomputable def seedVelocity (bX bY bZ : Vec3) (r1 r2 r3 : ℝ) : Vec3 :=
  let sx := (r1 - 0.5) * 0.02
  let sy := 0.01 + r2 * 0.02
  let sz := (r3 - 0.5) * 0.02
  sx • bX + sy • bY + sz • bZ

/-- The post-RNG hard speed clamp (lines 228-236): if the speed exceeds
`maxStartSpeed = 0.1`, rescale the velocity by `0.1 / s`. -/
noncomputable def clampVelocity (v : Vec3) : Vec3 :=
  if 0.1 < norm3 v then (0.1 / norm3 v) • v else v

/-! ## SDF generation (SDFGenerator.generate) -/

/-- A world-space triangle collected by `scene.traverse`. -/
structure Tri where
  a : Vec3
  b : Vec3
  c : Vec3

/-- Exact closest-point-on-triangle squared distance
(`pointToTriDistanceSquared`, SDFGenerator.js lines 45-84), with the
barycentric region classification of the source. -/
noncomputable def pointToTriDistanceSquared (p : Vec3) (t : Tri) : ℝ :=
  let a := t.a
  let b := t.b
  let c := t.c
  let ab := b - a
  let ac := c - a
  let ap := p - a
  let d1 := dot3 ab ap
  let d2 := dot3 ac ap
  if d1 ≤ 0 ∧ d2 ≤ 0 then distSq p a
  else
    let bp := p - b
    let d3 := dot3 ab bp
    let d4 := dot3 ac bp
    if 0 ≤ d3 ∧ d4 ≤ d3 then distSq p b
    else
      let vc := d1 * d4 - d3 * d2
      if vc ≤ 0 ∧ 0 ≤ d1 ∧ d3 ≤ 0 then
        let v := d1 / (d1 - d3)
        distSq p (v • ab + a)
      else
        let cp := p - c
        let d5 := dot3 ab cp
        let d6 := dot3 ac cp
        if 0 ≤ d6 ∧ d5 ≤ d6 then distSq p c
        else
          let vb := d5 * d2 - d1 * d6
          if vb ≤ 0 ∧ 0 ≤ d2 ∧ d6 ≤ 0 then
            let w := d2 / (d2 - d6)
            distSq p (w • ac + a)
          else
            let va := d3 * d6 - d5 * d4
            if va ≤ 0 ∧ 0 ≤ d4 - d3 ∧ 0 ≤ d5 - d6 then
              let w := (d4 - d3) / ((d4 - d3) + (d5 - d6))
              distSq p (w • (c - b) + b)
            else
              let denom := 1 / (va + vb + vc)
              let v := vb * denom
              let w := vc * denom
              distSq p (v • ab + w • ac + a)

/-- Brute-force minimum squared distance over the triangle list.
The JavaScript accumulator starts at `Infinity`; an empty triangle list is
modelled as `none`. -/
noncomputable def minDistSq (tris : List Tri) (p : Vec3) : Option ℝ :=
  tris.foldl
    (fun acc t =>
      match acc with
      | none => some (pointToTriDistanceSquared p t)
      | some m => some (min m (pointToTriDistanceSquared p t)))
    none

/-- The two-sided clamp of lines 128-129: `if (d > maxD) d = maxD;
if (d < -maxD) d = -maxD`. -/
noncomputable def clampSigned (maxD d : ℝ) : ℝ :=
  let d1 := if maxD < d then maxD else d
  if d1 < -maxD then -maxD else d1

/-- The value stored for one grid sample: signed (by the ray-parity inside
test, modelled as the abstract predicate `inside` since it delegates to
`THREE.Raycaster`) and clamped distance.  With no triangles the JavaScript
distance is `Infinity`, which the clamp maps to `±maxD`. -/
noncomputable def sdfSample (tris : List Tri) (inside : Vec3 → Bool) (maxD : ℝ)
    (p : Vec3) : ℝ :=
  match minDistSq tris p with
  | none => if inside p then -maxD else maxD
  | some m =>
      let d := Real.sqrt m
      clampSigned maxD (if inside p then -d else d)

/-- `THREE.MathUtils.lerp`. -/
noncomputable def lerp (a b t : ℝ) : ℝ := a + (b - a) * t

/-- Grid indices in loop order `z`, then `y`, then `x`. -/
def gridIndices (n : ℕ) : List (ℕ × ℕ × ℕ) :=
  (List.range n).flatMap fun z =>
    (List.range n).flatMap fun y =>
      (List.range n).map fun x => (z, y, x)

/-- World point of a grid index: linear interpolation of the padded
bounding-box corners at `x/(n-1)`, `y/(n-1)`, `z/(n-1)`. -/
noncomputable def gridPoint (n : ℕ) (bmin bmax : Vec3) (i : ℕ × ℕ × ℕ) : Vec3 :=
  let tz := (i.1 : ℝ) / ((n : ℝ) - 1)
  let ty := (i.2.1 : ℝ) / ((n : ℝ) - 1)
  let tx := (i.2.2 : ℝ) / ((n : ℝ) - 1)
  ⟨lerp bmin.x bmax.x tx, lerp bmin.y bmax.y ty, lerp bmin.z bmax.z tz⟩

/-- The full `data` array written by the triple loop of `generate`
(lines 103-134), for an arbitrary padded bounding box. -/
noncomputable def generateData (tris : List Tri) (inside : Vec3 → Bool)
    (maxD : ℝ) (n : ℕ) (bmin bmax : Vec3) : List ℝ :=
  (gridIndices n).map fun i => sdfSample tris inside maxD (gridPoint n bmin bmax i)

/-! ## Cooperative slice loop of `generate` (cancellation + progress) -/

/-- Observable events of one `generate` run: each progress callback with its
fraction, the thrown cancellation, or the normal return of the volume.
`done` counts completed z-slices. -/
inductive SDFEvent where
  | progress (frac : ℚ)
  | cancelled (done : ℕ)
  | completed (done : ℕ)
deriving DecidableEq, Repr

/-- The progress throttle divisor `Math.max(1, Math.floor(n / 20))`. -/
def throttleStep (n : ℕ) : ℕ := max 1 (n / 20)

/-- One pass of the `for (let z = 0; ...)` loop of `generate`:
at the top of each iteration the cancellation flag is checked and the run
throws; after the inner `y`/`x` loops the progress callback fires when
`z % max(1, floor(n/20)) === 0` with fraction `counted/total = (z+1)/n`;
`cd z = true` means `cancel()` is invoked while slice `z` is in progress
(in particular during the `await` that follows its progress report).
`cb` records whether an `onProgress` callback was supplied. -/
def sliceLoop (n : ℕ) (cd : ℕ → Bool) (cb : Bool) :
    ℕ → ℕ → Bool → List SDFEvent → List SDFEvent
  | 0, z, _, acc => acc ++ [SDFEvent.completed z]
  | rem + 1, z, flag, acc =>
    if flag then acc ++ [SDFEvent.cancelled z]
    else
      sliceLoop n cd cb rem (z + 1) (flag || cd z)
        (acc ++ (if cb && (z % throttleStep n == 0)
                 then [SDFEvent.progress (((z : ℚ) + 1) / (n : ℚ))]
                 else []))

/-- The mutable state of an `SDFGenerator` instance: the configured clamp
distance and the `_cancel` flag. -/
structure SDFGenState where
  maxDistance : ℚ
  cancelFlag : Bool
deriving DecidableEq, Repr

/-- `cancel()` (line 11): sets `_cancel`. -/
def SDFGenState.cancel (g : SDFGenState) : SDFGenState := { g with cancelFlag := true }

/-- `dispose()` (lines 156-158): also just sets `_cancel`. -/
def SDFGenState.dispose (g : SDFGenState) : SDFGenState := { g with cancelFlag := true }

/-- The event trace of one `generate` call on generator state `g`.
Line 17 (`this._cancel = false`) unconditionally resets the flag before the
slice loop starts, so the loop begins with flag `false` whatever `g` held. -/
def generateEvents (g : SDFGenState) (n : ℕ) (cd : ℕ → Bool) (cb : Bool) :
    List SDFEvent :=
  sliceLoop n cd cb n 0 false []

/-- The progress events a clean run emits for slices `z, z+1, ..., z+len-1`. -/
def progEvents (n : ℕ) (cb : Bool) (z len : ℕ) : List SDFEvent :=
  ((List.range' z len).filter fun i => cb && (i % throttleStep n == 0)).map
    fun i : ℕ => SDFEvent.progress (((i : ℚ) + 1) / (n : ℚ))

/-- The reported fractions of an event trace, in order. -/
def progressFracs (es : List SDFEvent) : List ℚ :=
  es.filterMap fun e =>
    match e with
    | SDFEvent.progress q => some q
    | _ => none

/-! ## Engine step model (instance.step, lines 427-475) -/

/-- Observable state of one engine instance.  `γ` abstracts the contents of
a particle buffer texture, `δ` the density render target.  The two
`GPUComputationRenderer` render targets per variable are modelled as a pair
indexed by the current-buffer parity. -/
structure EngineInst (γ δ : Type) where
  running : Bool
  pos : Bool → γ
  vel : Bool → γ
  current : Bool
  density : δ
  posTime : ℝ
  velTime : ℝ
  posDelta : ℝ
  velDelta : ℝ
  matTime : ℝ

/-- `instance.start()` (line 478): records the run flag. -/
def engineStart {γ δ : Type} (s : EngineInst γ δ) : EngineInst γ δ :=
  { s with running := true }

/-- `instance.stop()` (line 479): clears the run flag. -/
def engineStop {γ δ : Type} (s : EngineInst γ δ) : EngineInst γ δ :=
  { s with running := false }

/-- `instance.step(elapsed, delta)`: publishes the time uniforms into both
compute stages, runs the density splat+blur pass from the current position
buffer, computes the next velocity and position buffers from the current
ones (`fp`, `fv` abstract the position/velocity shader programs, `splat`
the splat-and-two-pass-blur pipeline), and flips the current buffer parity.
The body never reads the `running` flag. -/
def engineStep {γ δ : Type} (fp : γ → γ → ℝ → ℝ → γ) (fv : γ → γ → δ → ℝ → ℝ → γ)
    (splat : γ → δ) (s : EngineInst γ δ) (elapsed delta : ℝ) : EngineInst γ δ :=
  let cur := s.current
  let dens := splat (s.pos cur)
  let newVel := fv (s.pos cur) (s.vel cur) dens elapsed delta
  let newPos := fp (s.pos cur) (s.vel cur) elapsed delta
  { s with
    posTime := elapsed
    velTime := elapsed
    posDelta := delta
    velDelta := delta
    matTime := elapsed
    density := dens
    pos := fun b => if b = cur then s.pos cur else newPos
    vel := fun b => if b = cur then s.vel cur else newVel
    current := !cur }

/-! ## Disposal model (instance.dispose and factory dispose) -/

/-- Release-call counters for the resources owned by one engine instance,
one counter per `try { ... } catch` block of `instance.dispose`
(lines 488-496). -/
structure EngineResources where
  gpu : ℕ
  material : ℕ
  geometry : ℕ
  densityRTs : ℕ
  splat : ℕ
  blurs : ℕ
deriving DecidableEq, Repr

/-- One tracked engine instance as seen by the lifecycle code: an identity,
its release counters, and whether its `dispose` throws when invoked
(only relevant to the factory-level `try`/`catch`). -/
structure PEngine where
  rid : ℕ
  res : EngineResources
  failDispose : Bool
deriving DecidableEq, Repr

/-- `instance.dispose()` (lines 488-496): each resource release is invoked
again on every call — there is no disposed-guard — and each is wrapped in
its own `try { } catch`, so no error propagates. -/
def engineDispose (e : PEngine) : PEngine :=
  { e with
    res :=
      { gpu := e.res.gpu + 1
        material := e.res.material + 1
        geometry := e.res.geometry + 1
        densityRTs := e.res.densityRTs + 1
        splat := e.res.splat + 1
        blurs := e.res.blurs + 1 } }

/-- A possibly-throwing instance dispose, as the factory-level
`try { inst.dispose(); } catch (e) {}` (line 509) must assume. -/
def engineDisposeExc (e : PEngine) : Option PEngine :=
  if e.failDispose then none else some (engineDispose e)

/-- The factory's instance tracker (`this._instances`). -/
structure PFactory where
  instances : List PEngine
deriving DecidableEq, Repr

/-- `ParticleSystemFactory.dispose()` (lines 507-512): iterates a snapshot
of the tracked set, disposing each instance once inside `try`/`catch`
(a throwing instance is left as it was), then clears the set.  Returns the
final states of the formerly tracked instances alongside the factory. -/
def factoryDispose (f : PFactory) : List PEngine × PFactory :=
  (f.instances.map fun e => (engineDisposeExc e).getD e, { instances := [] })

/-! ## Concrete fixtures used by counterexamples and witnesses -/

/-- Mesh whose first qualifying scanned vertex is collinear with `A` and `B`
although the mesh also contains the non-collinear vertex `(0,1,0)`. -/
noncomputable def meshCollinearScan : Mesh :=
  { verts := [⟨0, 0, 0⟩, ⟨1, 0, 0⟩, ⟨2, 0, 0⟩, ⟨0, 1, 0⟩], world := id }

/-- Degenerate two-vertex (line-like) mesh whose world matrix mirrors the
x-axis (`makeScale(-1, 1, 1)`), as used to exercise the `vC` fallback. -/
noncomputable def meshLineMirrored : Mesh :=
  { verts := [⟨0, 0, 0⟩, ⟨1, 0, 0⟩], world := fun v => ⟨-v.x, v.y, v.z⟩ }

/-- The unit square of the spec's testable-properties section. -/
noncomputable def meshSquare : Mesh :=
  { verts := [⟨0, 0, 0⟩, ⟨1, 0, 0⟩, ⟨1, 0, 1⟩, ⟨0, 0, 1⟩], world := id }

/-- An engine instance with fresh (zero) release counters. -/
def inst0 : PEngine := ⟨0, ⟨0, 0, 0, 0, 0, 0⟩, false⟩

/-- A tracked instance whose dispose throws. -/
def instFail : PEngine := ⟨1, ⟨0, 0, 0, 0, 0, 0⟩, true⟩

/-- A factory tracking a failing instance before a healthy one. -/
def fac0 : PFactory := ⟨[instFail, inst0]⟩

/-! ## Basic vector lemmas -/

namespace Vec3

@[simp] theorem add_def (a b : Vec3) : a + b = ⟨a.x + b.x, a.y + b.y, a.z + b.z⟩ := rfl

@[simp] theorem sub_def (a b : Vec3) : a - b = ⟨a.x - b.x, a.y - b.y, a.z - b.z⟩ := rfl

@[simp] theorem smul_def (c : ℝ) (v : Vec3) : c • v = ⟨c * v.x, c * v.y, c * v.z⟩ := rfl

@[simp] theorem zero_def : (0 : Vec3) = ⟨0, 0, 0⟩ := rfl


end Vec3

theorem normSq_nonneg (v : Vec3) : 0 ≤ normSq v := by
  have hx := mul_self_nonneg v.x
  have hy := mul_self_nonneg v.y
  have hz := mul_self_nonneg v.z
  unfold normSq
  linarith

theorem norm3_nonneg (v : Vec3) : 0 ≤ norm3 v := Real.sqrt_nonneg _

theorem normSq_eq_zero_iff (v : Vec3) : normSq v = 0 ↔ v = 0 := by
  constructor
  · intro h
    unfold normSq at h
    have hx : v.x = 0 := by nlinarith [mul_self_nonneg v.x, mul_self_nonneg v.y, mul_self_nonneg v.z]
    have hy : v.y = 0 := by nlinarith [mul_self_nonneg v.x, mul_self_nonneg v.y, mul_self_nonneg v.z]
    have hz : v.z = 0 := by nlinarith [mul_self_nonneg v.x, mul_self_nonneg v.y, mul_self_nonneg v.z]
    cases v
    simp_all
  · intro h
    subst h
    simp [normSq]

theorem norm3_eq_zero_iff (v : Vec3) : norm3 v = 0 ↔ v = 0 := by
  rw [norm3, Real.sqrt_eq_zero (normSq_nonneg v), normSq_eq_zero_iff]

theorem norm3_pos_of_ne (v : Vec3) (h : v ≠ 0) : 0 < norm3 v := by
  rcases lt_or_eq_of_le (norm3_nonneg v) with h' | h'
  · exact h'
  · exact absurd ((norm3_eq_zero_iff v).mp h'.symm) h

theorem sq_norm3 (v : Vec3) : norm3 v ^ 2 = normSq v :=
  Real.sq_sqrt (normSq_nonneg v)

theorem normSq_smul (c : ℝ) (v : Vec3) : normSq (c • v) = c ^ 2 * normSq v := by
  simp only [Vec3.smul_def, normSq]
  ring

theorem norm3_smul (c : ℝ) (v : Vec3) : norm3 (c • v) = |c| * norm3 v := by
  rw [norm3, normSq_smul, Real.sqrt_mul (sq_nonneg c), Real.sqrt_sq_eq_abs, norm3]

theorem norm3_normalize3 (v : Vec3) (h : v ≠ 0) : norm3 (normalize3 v) = 1 := by
  have hp : 0 < norm3 v := norm3_pos_of_ne v h
  rw [normalize3, if_neg (ne_of_gt hp), norm3_smul, abs_inv, abs_of_pos hp,
    inv_mul_cancel₀ (ne_of_gt hp)]

theorem dot3_smul_left (c : ℝ) (a b : Vec3) : dot3 (c • a) b = c * dot3 a b := by
  simp only [Vec3.smul_def, dot3]; ring

theorem dot3_smul_right (c : ℝ) (a b : Vec3) : dot3 a (c • b) = c * dot3 a b := by
  simp only [Vec3.smul_def, dot3]; ring

theorem dot3_cross3_left (a b : Vec3) : dot3 a (cross3 a b) = 0 := by
  simp only [dot3, cross3]; ring

theorem dot3_cross3_right (a b : Vec3) : dot3 b (cross3 a b) = 0 := by
  simp only [dot3, cross3]; ring

theorem normSq_cross3 (a b : Vec3) :
    normSq (cross3 a b) = normSq a * normSq b - dot3 a b ^ 2 := by
  simp only [normSq, cross3, dot3]; ring

/-! ## Claim C7: step ignores the run-state flags -/

/-- C7: `step(elapsed, delta)` does not consult the run-state flags recorded
by `start()` and `stop()`: stepping after `start()` and stepping after
`stop()` perform the same full update, differing only in the stored flag
itself, so `step` commutes with both flag writes. -/
theorem step_ignores_run_flag {γ δ : Type} (fp : γ → γ → ℝ → ℝ → γ)
    (fv : γ → γ → δ → ℝ → ℝ → γ) (splat : γ → δ) (s : EngineInst γ δ)
    (elapsed delta : ℝ) :
    engineStep fp fv splat (engineStart s) elapsed delta
      = engineStart (engineStep fp fv splat s elapsed delta)
    ∧ engineStep fp fv splat (engineStop s) elapsed delta
      = engineStop (engineStep fp fv splat s elapsed delta) :=
  ⟨rfl, rfl⟩

/-! ## Claim C9: disposal idempotence and bulk teardown -/

/-- C9 counterexample: a second `instance.dispose()` call does release
resources twice — the gpu-compute release counter reaches 2, not 1, because
`instance.dispose` has no disposed-guard. -/
theorem dispose_twice_releases_twice :
    (engineDispose (engineDispose inst0)).res.gpu = 2 ∧ (2 : ℕ) ≠ 1 := by
  constructor
  · rfl
  · decide

/-- C9 (amended): a second `instance.dispose()` propagates no error but
re-invokes every resource release (counters advance by one per call); the
factory's bulk teardown disposes every tracked instance exactly once per
call — a non-failing instance at position `i` is disposed exactly once
regardless of any other instance failing — and a second factory `dispose()`
finds an empty tracker and re-disposes nothing. -/
theorem dispose_lifecycle (f : PFactory) (e e2 : PEngine) (i : ℕ)
    (hi : f.instances[i]? = some e) (hok : e.failDispose = false) :
    (factoryDispose f).1[i]? = some (engineDispose e)
    ∧ factoryDispose (factoryDispose f).2 = ([], PFactory.mk [])
    ∧ (engineDispose (engineDispose e2)).res.gpu = e2.res.gpu + 2
    ∧ (engineDispose (engineDispose e2)).res.material = e2.res.material + 2 := by
  refine ⟨?_, rfl, rfl, rfl⟩
  simp [factoryDispose, List.getElem?_map, hi, engineDisposeExc, hok]

/-- C9 witness: on a factory tracking a failing instance before a healthy
one, bulk teardown still disposes the healthy instance (exactly once), and
double instance disposal bumps the counters to 2. -/
theorem dispose_lifecycle_witness :
    (factoryDispose fac0).1[1]? = some (engineDispose inst0)
    ∧ factoryDispose (factoryDispose fac0).2 = ([], PFactory.mk [])
    ∧ (engineDispose (engineDispose inst0)).res.gpu = inst0.res.gpu + 2
    ∧ (engineDispose (engineDispose inst0)).res.material = inst0.res.material + 2 :=
  dispose_lifecycle fac0 inst0 inst0 1 rfl rfl

/-! ## Claim C5: seeded velocity speed clamp -/

/-- C5: after seeding, every particle's initial velocity has magnitude at
most 0.1; any drawn seed velocity whose magnitude exceeds 0.1 is rescaled
by exactly `0.1 / speed`, leaving magnitude exactly 0.1. -/
theorem seedVelocity_clamped (bX bY bZ : Vec3) (r1 r2 r3 : ℝ) :
    norm3 (clampVelocity (seedVelocity bX bY bZ r1 r2 r3)) ≤ 0.1
    ∧ (0.1 < norm3 (seedVelocity bX bY bZ r1 r2 r3) →
        clampVelocity (seedVelocity bX bY bZ r1 r2 r3)
          = (0.1 / norm3 (seedVelocity bX bY bZ r1 r2 r3))
              • seedVelocity bX bY bZ r1 r2 r3
        ∧ norm3 (clampVelocity (seedVelocity bX bY bZ r1 r2 r3)) = 0.1) := by
  set v := seedVelocity bX bY bZ r1 r2 r3 with hv
  by_cases h : 0.1 < norm3 v
  · have hpos : (0 : ℝ) < norm3 v := lt_trans (by norm_num) h
    have hcl : clampVelocity v = (0.1 / norm3 v) • v := by
      unfold clampVelocity
      rw [if_pos h]
    have hn : norm3 ((0.1 / norm3 v) • v) = 0.1 := by
      rw [norm3_smul, abs_of_pos (div_pos (by norm_num) hpos),
        div_mul_cancel₀ _ (ne_of_gt hpos)]
    refine ⟨?_, fun _ => ⟨hcl, ?_⟩⟩
    · rw [hcl, hn]
    · rw [hcl, hn]
  · push_neg at h
    have hcl : clampVelocity v = v := by
      unfold clampVelocity
      rw [if_neg (not_lt.mpr h)]
    exact ⟨by rw [hcl]; exact h, fun hc => absurd hc (not_lt.mpr h)⟩

/-- C5 witness: with basis vector `(100,0,0)` and draws all 1, the raw seed
velocity is `(1,0,0)` of magnitude 1 > 0.1, and the clamp yields magnitude
exactly 0.1. -/
theorem seedVelocity_clamped_witness :
    norm3 (clampVelocity (seedVelocity ⟨100, 0, 0⟩ 0 0 1 1 1)) = 0.1 := by
  have hv : seedVelocity ⟨100, 0, 0⟩ 0 0 1 1 1 = ⟨1, 0, 0⟩ := by
    unfold seedVelocity
    simp [Vec3.smul_def, Vec3.add_def, Vec3.zero_def, Vec3.mk.injEq]
    norm_num
  have hn : norm3 (⟨1, 0, 0⟩ : Vec3) = 1 := by
    unfold norm3 normSq
    norm_num [Real.sqrt_one]
  have := (seedVelocity_clamped ⟨100, 0, 0⟩ 0 0 1 1 1).2
  rw [hv, hn] at this
  have h2 := this (by norm_num)
  rw [hv]
  exact h2.2

/-! ## Claim C4: seed-position distribution -/

/-- Auxiliary bound: a factor of absolute value at most one shrinks a
nonnegative bound. -/
theorem abs_mul_le_of_abs_le_one (a b : ℝ) (ha : |a| ≤ 1) (hb : 0 ≤ b) :
    |a * b| ≤ b := by
  rw [abs_mul, abs_of_nonneg hb]
  nlinarith [abs_nonneg a]

/-- C4: for `spawnScale = s` and plane extents `(width, height)`, every
seeded position is the origin plus an in-plane displacement within
`[-0.5*s*width, 0.5*s*width]` along `basisX` and
`[-0.5*s*height, 0.5*s*height]` along `basisZ`, plus a lift of
`max(0.01, 0.02*s)` with jitter at most `0.006` along `basisY`; and every
seeded freshness value lies in `[0.6, 0.8]`. -/
theorem seedPosition_within (planeOffset bX bY bZ : Vec3)
    (width height s r1 r2 r3 r4 : ℝ)
    (hs : 0 ≤ s) (hw : 0 ≤ width) (hh : 0 ≤ height)
    (h1l : 0 ≤ r1) (h1u : r1 < 1) (h2l : 0 ≤ r2) (h2u : r2 < 1)
    (h3l : 0 ≤ r3) (h3u : r3 < 1) (h4l : 0 ≤ r4) (h4u : r4 < 1) :
    (∃ rx rz j : ℝ,
        seedPosition planeOffset bX bY bZ width height s r1 r2 r3
          = planeOffset + rx • bX + rz • bZ + (max 0.01 (0.02 * s) + j) • bY
        ∧ |rx| ≤ 0.5 * s * width ∧ |rz| ≤ 0.5 * s * height ∧ |j| ≤ 0.006)
    ∧ 0.6 ≤ seedFreshness r4 ∧ seedFreshness r4 ≤ 0.8 := by
  refine ⟨⟨(r1 * 2.0 - 1.0) * (width * 0.5 * s),
          (r2 * 2.0 - 1.0) * (height * 0.5 * s),
          (r3 - 0.5) * 0.012, rfl, ?_, ?_, ?_⟩, ?_, ?_⟩
  · have h := abs_mul_le_of_abs_le_one (r1 * 2.0 - 1.0) (width * 0.5 * s)
      (abs_le.mpr ⟨by linarith, by linarith⟩) (by positivity)
    calc |(r1 * 2.0 - 1.0) * (width * 0.5 * s)| ≤ width * 0.5 * s := h
      _ = 0.5 * s * width := by ring
  · have h := abs_mul_le_of_abs_le_one (r2 * 2.0 - 1.0) (height * 0.5 * s)
      (abs_le.mpr ⟨by linarith, by linarith⟩) (by positivity)
    calc |(r2 * 2.0 - 1.0) * (height * 0.5 * s)| ≤ height * 0.5 * s := h
      _ = 0.5 * s * height := by ring
  · have h : |r3 - 0.5| ≤ 0.5 := abs_le.mpr ⟨by linarith, by linarith⟩
    calc |(r3 - 0.5) * 0.012| = |r3 - 0.5| * 0.012 := by
          rw [abs_mul]; norm_num
      _ ≤ 0.5 * 0.012 := by nlinarith [abs_nonneg (r3 - 0.5)]
      _ ≤ 0.006 := by norm_num
  · unfold seedFreshness; nlinarith
  · unfold seedFreshness; nlinarith

/-- C4 witness: concrete frame data (origin 0, axis-aligned basis, unit
extents), spawn scale 1/2 and all four draws 1/2. -/
theorem seedPosition_within_witness :
    (∃ rx rz j : ℝ,
        seedPosition 0 ⟨1, 0, 0⟩ ⟨0, 1, 0⟩ ⟨0, 0, 1⟩ 1 1 (1 / 2) (1 / 2) (1 / 2) (1 / 2)
          = 0 + rx • (⟨1, 0, 0⟩ : Vec3) + rz • (⟨0, 0, 1⟩ : Vec3)
            + (max 0.01 (0.02 * (1 / 2)) + j) • (⟨0, 1, 0⟩ : Vec3)
        ∧ |rx| ≤ 0.5 * (1 / 2) * 1 ∧ |rz| ≤ 0.5 * (1 / 2) * 1 ∧ |j| ≤ 0.006)
    ∧ 0.6 ≤ seedFreshness (1 / 2) ∧ seedFreshness (1 / 2) ≤ 0.8 :=
  seedPosition_within 0 ⟨1, 0, 0⟩ ⟨0, 1, 0⟩ ⟨0, 0, 1⟩ 1 1 (1 / 2) (1 / 2) (1 / 2) (1 / 2) (1 / 2)
    (by norm_num) (by norm_num) (by norm_num) (by norm_num) (by norm_num)
    (by norm_num) (by norm_num) (by norm_num) (by norm_num) (by norm_num) (by norm_num)

/-! ## Claim C2: SDF values are clamped to the configured range -/

/-- The clamp of lines 128-129 maps every real into `[-maxD, maxD]`
whenever `maxD` is nonnegative. -/
theorem clampSigned_mem (maxD d : ℝ) (h : 0 ≤ maxD) :
    -maxD ≤ clampSigned maxD d ∧ clampSigned maxD d ≤ maxD := by
  unfold clampSigned
  dsimp only
  split_ifs <;> constructor <;> linarith

/-- C2: every scalar value stored in the generated SDF volume lies in
`[-maxDistance, maxDistance]`, for every triangle set, inside test,
grid resolution and padded bounding box (maxDistance nonnegative, as the
constructor default 1.0 is). -/
theorem sdf_values_clamped (tris : List Tri) (inside : Vec3 → Bool) (maxD : ℝ)
    (n : ℕ) (bmin bmax : Vec3) (hmd : 0 ≤ maxD) (v : ℝ)
    (hv : v ∈ generateData tris inside maxD n bmin bmax) :
    -maxD ≤ v ∧ v ≤ maxD := by
  rcases List.mem_map.mp hv with ⟨i, _, rfl⟩
  unfold sdfSample
  cases hmin : minDistSq tris (gridPoint n bmin bmax i) with
  | none =>
      cases hI : inside (gridPoint n bmin bmax i) <;> simp [hI] <;> linarith
  | some m =>
      dsimp only
      exact clampSigned_mem maxD _ hmd

/-- C2 witness: with no triangles, an always-outside test, `maxDistance = 1`
and a 2x2x2 grid over the degenerate box at the origin, the first stored
sample lies in `[-1, 1]`. -/
theorem sdf_values_clamped_witness :
    -(1 : ℝ) ≤ sdfSample [] (fun _ => false) 1 (gridPoint 2 0 0 (0, 0, 0))
    ∧ sdfSample [] (fun _ => false) 1 (gridPoint 2 0 0 (0, 0, 0)) ≤ 1 :=
  sdf_values_clamped [] (fun _ => false) 1 2 0 0 (by norm_num) _
    (List.mem_map.mpr ⟨(0, 0, 0), by decide, rfl⟩)

/-! ## Claim C1: orthonormality of the derived plane frame -/

theorem dot3_comm (a b : Vec3) : dot3 a b = dot3 b a := by
  simp only [dot3]; ring

theorem norm3_zero : norm3 (0 : Vec3) = 0 := by
  simp [norm3, normSq, Real.sqrt_zero]

theorem normalize3_zero : normalize3 (0 : Vec3) = 0 := by
  rw [normalize3, if_pos norm3_zero]
  simp [Vec3.smul_def]

/-- Key geometric fact: when `u` is nonzero and `cross3 u w` is nonzero,
the three vectors computed as in `_buildSystem` — `normalize(u)`,
`normalize(cross(u, w))` and `normalize(cross(basisY, basisX))` — are
pairwise orthogonal unit vectors. -/
theorem basis_orthonormal (u w : Vec3) (hu : u ≠ 0) (hw : cross3 u w ≠ 0) :
    dot3 (normalize3 u) (normalize3 (cross3 u w)) = 0
    ∧ dot3 (normalize3 u)
        (normalize3 (cross3 (normalize3 (cross3 u w)) (normalize3 u))) = 0
    ∧ dot3 (normalize3 (cross3 u w))
        (normalize3 (cross3 (normalize3 (cross3 u w)) (normalize3 u))) = 0
    ∧ norm3 (normalize3 u) = 1
    ∧ norm3 (normalize3 (cross3 u w)) = 1
    ∧ norm3 (normalize3 (cross3 (normalize3 (cross3 u w)) (normalize3 u))) = 1 := by
  have hnX : norm3 (normalize3 u) = 1 := norm3_normalize3 u hu
  have hnY : norm3 (normalize3 (cross3 u w)) = 1 := norm3_normalize3 _ hw
  have hdXY : dot3 (normalize3 u) (normalize3 (cross3 u w)) = 0 := by
    rw [normalize3, normalize3, dot3_smul_left, dot3_smul_right, dot3_cross3_left]
    ring
  have hsqX : normSq (normalize3 u) = 1 := by
    rw [← sq_norm3, hnX]; norm_num
  have hsqY : normSq (normalize3 (cross3 u w)) = 1 := by
    rw [← sq_norm3, hnY]; norm_num
  have hdYX : dot3 (normalize3 (cross3 u w)) (normalize3 u) = 0 := by
    rw [dot3_comm]; exact hdXY
  have hsqYX : normSq (cross3 (normalize3 (cross3 u w)) (normalize3 u)) = 1 := by
    rw [normSq_cross3, hsqX, hsqY, hdYX]
    norm_num
  have hYXne : cross3 (normalize3 (cross3 u w)) (normalize3 u) ≠ 0 := by
    intro h
    rw [h] at hsqYX
    simp [normSq] at hsqYX
  have hnZ : norm3 (normalize3 (cross3 (normalize3 (cross3 u w)) (normalize3 u))) = 1 :=
    norm3_normalize3 _ hYXne
  have hdXZ : dot3 (normalize3 u)
      (normalize3 (cross3 (normalize3 (cross3 u w)) (normalize3 u))) = 0 := by
    conv_lhs => rw [show normalize3 (cross3 (normalize3 (cross3 u w)) (normalize3 u))
      = (if norm3 (cross3 (normalize3 (cross3 u w)) (normalize3 u)) = 0 then 1
         else norm3 (cross3 (normalize3 (cross3 u w)) (normalize3 u)))⁻¹
        • cross3 (normalize3 (cross3 u w)) (normalize3 u) from rfl]
    rw [dot3_smul_right, dot3_cross3_right]
    ring
  have hdYZ : dot3 (normalize3 (cross3 u w))
      (normalize3 (cross3 (normalize3 (cross3 u w)) (normalize3 u))) = 0 := by
    conv_lhs => rw [show normalize3 (cross3 (normalize3 (cross3 u w)) (normalize3 u))
      = (if norm3 (cross3 (normalize3 (cross3 u w)) (normalize3 u)) = 0 then 1
         else norm3 (cross3 (normalize3 (cross3 u w)) (normalize3 u)))⁻¹
        • cross3 (normalize3 (cross3 u w)) (normalize3 u) from rfl]
    rw [dot3_smul_right, dot3_cross3_left]
    ring
  exact ⟨hdXY, hdXZ, hdYZ, hnX, hnY, hnZ⟩

theorem buildFrame_basisX (m : Mesh) :
    (buildFrame m).basisX = normalize3 (vertB m - vertA m) := rfl

theorem buildFrame_basisY (m : Mesh) :
    (buildFrame m).basisY
      = normalize3 (cross3 (vertB m - vertA m) (chooseC m - vertA m)) := rfl

theorem buildFrame_basisZ (m : Mesh) :
    (buildFrame m).basisZ
      = normalize3 (cross3 (buildFrame m).basisY (buildFrame m).basisX) := rfl

/-- C1 (amended): the derived `basisX`/`basisY`/`basisZ` are pairwise
orthogonal and unit length provided the triple actually used by the code is
non-degenerate: `B - A` nonzero and `C` (the vertex the scan selects, not
merely some non-collinear vertex of the mesh) not collinear with `A`, `B`.
This holds regardless of scale or rotation of the input. -/
theorem planeFrame_orthonormal (m : Mesh)
    (hAB : vertB m - vertA m ≠ 0)
    (hC : cross3 (vertB m - vertA m) (chooseC m - vertA m) ≠ 0) :
    dot3 (buildFrame m).basisX (buildFrame m).basisY = 0
    ∧ dot3 (buildFrame m).basisX (buildFrame m).basisZ = 0
    ∧ dot3 (buildFrame m).basisY (buildFrame m).basisZ = 0
    ∧ norm3 (buildFrame m).basisX = 1
    ∧ norm3 (buildFrame m).basisY = 1
    ∧ norm3 (buildFrame m).basisZ = 1 := by
  rw [buildFrame_basisZ, buildFrame_basisY, buildFrame_basisX]
  exact basis_orthonormal (vertB m - vertA m) (chooseC m - vertA m) hAB hC

/-- Distance comparison via squared distance (used to evaluate the scan
condition on concrete vertices). -/
theorem lt_dist3_of_sq (p q : Vec3) (c : ℝ) (hc : 0 ≤ c) (h : c ^ 2 < distSq p q) :
    c < dist3 p q := by
  rw [dist3, norm3]
  exact (Real.lt_sqrt hc).mpr h

theorem vertA_meshCollinearScan : vertA meshCollinearScan = ⟨0, 0, 0⟩ := rfl

theorem vertB_meshCollinearScan : vertB meshCollinearScan = ⟨1, 0, 0⟩ := rfl

theorem chooseC_meshCollinearScan : chooseC meshCollinearScan = ⟨2, 0, 0⟩ := by
  have hfar : farPred (vertA meshCollinearScan) (vertB meshCollinearScan) ⟨2, 0, 0⟩ := by
    rw [vertA_meshCollinearScan, vertB_meshCollinearScan]
    constructor
    · apply lt_dist3_of_sq _ _ _ (by norm_num)
      show (1e-6 : ℝ) ^ 2 < distSq ⟨2, 0, 0⟩ ⟨0, 0, 0⟩
      simp only [distSq, normSq, Vec3.sub_def]
      norm_num
    · apply lt_dist3_of_sq _ _ _ (by norm_num)
      show (1e-6 : ℝ) ^ 2 < distSq ⟨2, 0, 0⟩ ⟨1, 0, 0⟩
      simp only [distSq, normSq, Vec3.sub_def]
      norm_num
  have hdrop : (worldVerts meshCollinearScan).drop 2 = [⟨2, 0, 0⟩, ⟨0, 1, 0⟩] := rfl
  rw [chooseC, hdrop, chooseCAux, if_pos hfar]
  rfl

theorem vertA_meshSquare : vertA meshSquare = ⟨0, 0, 0⟩ := rfl

theorem vertB_meshSquare : vertB meshSquare = ⟨1, 0, 0⟩ := rfl

theorem chooseC_meshSquare : chooseC meshSquare = ⟨1, 0, 1⟩ := by
  have hfar : farPred (vertA meshSquare) (vertB meshSquare) ⟨1, 0, 1⟩ := by
    rw [vertA_meshSquare, vertB_meshSquare]
    constructor
    · apply lt_dist3_of_sq _ _ _ (by norm_num)
      show (1e-6 : ℝ) ^ 2 < distSq ⟨1, 0, 1⟩ ⟨0, 0, 0⟩
      simp only [distSq, normSq, Vec3.sub_def]
      norm_num
    · apply lt_dist3_of_sq _ _ _ (by norm_num)
      show (1e-6 : ℝ) ^ 2 < distSq ⟨1, 0, 1⟩ ⟨1, 0, 0⟩
      simp only [distSq, normSq, Vec3.sub_def]
      norm_num
  have hdrop : (worldVerts meshSquare).drop 2 = [⟨1, 0, 1⟩, ⟨0, 0, 1⟩] := rfl
  rw [chooseC, hdrop, chooseCAux, if_pos hfar]
  rfl

/-- C1 counterexample: `meshCollinearScan` has three non-collinear vertices
(indices 0, 1, 3), yet because the scan accepts the collinear vertex at
index 2 as `C`, the derived `basisY` is the zero vector — its norm is 0,
not 1 — so the claim as stated fails. -/
theorem planeFrame_claim_counterexample :
    cross3 ((worldVerts meshCollinearScan).getD 1 0 - (worldVerts meshCollinearScan).getD 0 0)
        ((worldVerts meshCollinearScan).getD 3 0 - (worldVerts meshCollinearScan).getD 0 0) ≠ 0
    ∧ norm3 (buildFrame meshCollinearScan).basisY = 0
    ∧ norm3 (buildFrame meshCollinearScan).basisY ≠ 1 := by
  refine ⟨?_, ?_, ?_⟩
  · intro h
    have h00 : (worldVerts meshCollinearScan).getD 0 0 = ⟨0, 0, 0⟩ := rfl
    have h10 : (worldVerts meshCollinearScan).getD 1 0 = ⟨1, 0, 0⟩ := rfl
    have h30 : (worldVerts meshCollinearScan).getD 3 0 = ⟨0, 1, 0⟩ := rfl
    rw [h00, h10, h30] at h
    have hz := congrArg Vec3.z h
    simp only [cross3, Vec3.sub_def, Vec3.zero_def] at hz
    norm_num at hz
  · rw [buildFrame_basisY, vertA_meshCollinearScan, vertB_meshCollinearScan,
      chooseC_meshCollinearScan]
    have hcross : cross3 ((⟨1, 0, 0⟩ : Vec3) - ⟨0, 0, 0⟩) ((⟨2, 0, 0⟩ : Vec3) - ⟨0, 0, 0⟩)
        = (0 : Vec3) := by
      simp only [cross3, Vec3.sub_def, Vec3.zero_def, Vec3.mk.injEq]
      norm_num
    rw [hcross, normalize3_zero, norm3_zero]
  · rw [buildFrame_basisY, vertA_meshCollinearScan, vertB_meshCollinearScan,
      chooseC_meshCollinearScan]
    have hcross : cross3 ((⟨1, 0, 0⟩ : Vec3) - ⟨0, 0, 0⟩) ((⟨2, 0, 0⟩ : Vec3) - ⟨0, 0, 0⟩)
        = (0 : Vec3) := by
      simp only [cross3, Vec3.sub_def, Vec3.zero_def, Vec3.mk.injEq]
      norm_num
    rw [hcross, normalize3_zero, norm3_zero]
    norm_num

/-- C1 witness: on the unit square the chosen triple is non-degenerate and
the amended theorem yields the orthonormal frame. -/
theorem planeFrame_orthonormal_witness :
    dot3 (buildFrame meshSquare).basisX (buildFrame meshSquare).basisY = 0
    ∧ dot3 (buildFrame meshSquare).basisX (buildFrame meshSquare).basisZ = 0
    ∧ dot3 (buildFrame meshSquare).basisY (buildFrame meshSquare).basisZ = 0
    ∧ norm3 (buildFrame meshSquare).basisX = 1
    ∧ norm3 (buildFrame meshSquare).basisY = 1
    ∧ norm3 (buildFrame meshSquare).basisZ = 1 := by
  apply planeFrame_orthonormal meshSquare
  · rw [vertA_meshSquare, vertB_meshSquare]
    intro h
    have hx := congrArg Vec3.x h
    simp only [Vec3.sub_def, Vec3.zero_def] at hx
    norm_num at hx
  · rw [vertA_meshSquare, vertB_meshSquare, chooseC_meshSquare]
    intro h
    have hy := congrArg Vec3.y h
    simp only [cross3, Vec3.sub_def, Vec3.zero_def] at hy
    norm_num at hy

/-! ## Claim C6: third-vertex selection and fallback -/

/-- Characterization of the scan: a `some` answer is the first far element. -/
theorem chooseCAux_some (vA vB : Vec3) :
    ∀ (l : List Vec3) (c : Vec3), chooseCAux vA vB l = some c →
      ∃ l1 l2, l = l1 ++ c :: l2 ∧ farPred vA vB c ∧ ∀ p ∈ l1, ¬farPred vA vB p := by
  intro l
  induction l with
  | nil => intro c hc; simp [chooseCAux] at hc
  | cons p rest ih =>
    intro c hc
    rw [chooseCAux] at hc
    by_cases hp : farPred vA vB p
    · rw [if_pos hp] at hc
      obtain rfl : p = c := Option.some.inj hc
      exact ⟨[], rest, rfl, hp, by simp⟩
    · rw [if_neg hp] at hc
      obtain ⟨l1, l2, heq, hfar, hnone⟩ := ih c hc
      refine ⟨p :: l1, l2, by rw [heq]; rfl, hfar, ?_⟩
      intro q hq
      rcases List.mem_cons.mp hq with rfl | hq'
      · exact hp
      · exact hnone q hq'

/-- Characterization of the scan: `none` means no element qualifies. -/
theorem chooseCAux_none (vA vB : Vec3) :
    ∀ l : List Vec3, chooseCAux vA vB l = none ↔ ∀ p ∈ l, ¬farPred vA vB p := by
  intro l
  induction l with
  | nil => simp [chooseCAux]
  | cons p rest ih =>
    rw [chooseCAux]
    by_cases hp : farPred vA vB p
    · rw [if_pos hp]
      simp [hp]
    · rw [if_neg hp]
      rw [ih]
      constructor
      · intro h q hq
        rcases List.mem_cons.mp hq with rfl | hq'
        · exact hp
        · exact h q hq'
      · intro h q hq
        exact h q (List.mem_cons_of_mem p hq)

/-- C6 (amended): plane-frame derivation picks `A` at index 0 and `B` at
index 1 of the world vertex list, then either `C` is the first scanned
vertex (from index 2 on) whose distance to both `A` and `B` exceeds 1e-6,
or no scanned vertex qualifies and `C` falls back to the mesh's LOCAL
bounding-box max corner transformed by the mesh's world matrix. -/
theorem chooseC_spec (m : Mesh) :
    vertA m = (worldVerts m).getD 0 0
    ∧ vertB m = (worldVerts m).getD 1 0
    ∧ ((∃ l1 l2, (worldVerts m).drop 2 = l1 ++ chooseC m :: l2
          ∧ farPred (vertA m) (vertB m) (chooseC m)
          ∧ ∀ p ∈ l1, ¬farPred (vertA m) (vertB m) p)
       ∨ ((∀ p ∈ (worldVerts m).drop 2, ¬farPred (vertA m) (vertB m) p)
          ∧ chooseC m = m.world (bboxMax m.verts))) := by
  refine ⟨rfl, rfl, ?_⟩
  cases hc : chooseCAux (vertA m) (vertB m) ((worldVerts m).drop 2) with
  | none =>
    right
    refine ⟨(chooseCAux_none (vertA m) (vertB m) _).mp hc, ?_⟩
    rw [chooseC, hc]
    rfl
  | some c =>
    left
    have hcc : chooseC m = c := by rw [chooseC, hc]; rfl
    rw [hcc]
    exact chooseCAux_some (vertA m) (vertB m) _ c hc

/-- C6 counterexample: on a mirrored degenerate line mesh, the fallback `C`
is `(-1,0,0)` — the LOCAL bounding-box max corner `(1,0,0)` pushed through
the mirroring world matrix — while the mesh's WORLD bounding-box max corner
is `(0,0,0)`; the claim's described fallback does not match the code. -/
theorem chooseC_fallback_counterexample :
    chooseC meshLineMirrored = ⟨-1, 0, 0⟩
    ∧ bboxMax (worldVerts meshLineMirrored) = ⟨0, 0, 0⟩
    ∧ chooseC meshLineMirrored ≠ bboxMax (worldVerts meshLineMirrored) := by
  have h1 : chooseC meshLineMirrored = ⟨-1, 0, 0⟩ := by
    have hdrop : (worldVerts meshLineMirrored).drop 2 = [] := rfl
    rw [chooseC, hdrop, chooseCAux]
    show meshLineMirrored.world (bboxMax meshLineMirrored.verts) = ⟨-1, 0, 0⟩
    show (⟨-(max (0 : ℝ) 1), max (0 : ℝ) 0, max (0 : ℝ) 0⟩ : Vec3) = ⟨-1, 0, 0⟩
    simp [Vec3.mk.injEq]
  have h2 : bboxMax (worldVerts meshLineMirrored) = ⟨0, 0, 0⟩ := by
    show (⟨max (-(0 : ℝ)) (-1), max (0 : ℝ) 0, max (0 : ℝ) 0⟩ : Vec3) = ⟨0, 0, 0⟩
    have hm : max (-(0 : ℝ)) (-1) = 0 := by norm_num
    rw [hm, max_self]
  refine ⟨h1, h2, ?_⟩
  rw [h1, h2]
  intro h
  have hx := congrArg Vec3.x h
  norm_num at hx

/-! ## Slice-loop lemmas (claims C3, C8, C10) -/

/-- With the flag already set, the next boundary check throws at once. -/
theorem sliceLoop_flag_true (n : ℕ) (cd : ℕ → Bool) (cb : Bool) (rem z : ℕ)
    (acc : List SDFEvent) (hrem : 0 < rem) :
    sliceLoop n cd cb rem z true acc = acc ++ [SDFEvent.cancelled z] := by
  cases rem with
  | zero => omega
  | succ r => rw [sliceLoop]; simp

theorem progEvents_zero (n : ℕ) (cb : Bool) (z : ℕ) : progEvents n cb z 0 = [] := rfl

theorem progEvents_succ (n : ℕ) (cb : Bool) (z len : ℕ) :
    progEvents n cb z (len + 1)
      = (if cb && (z % throttleStep n == 0)
         then [SDFEvent.progress (((z : ℚ) + 1) / (n : ℚ))] else [])
        ++ progEvents n cb (z + 1) len := by
  unfold progEvents
  rw [List.range'_succ]
  rw [List.filter_cons]
  by_cases h : (cb && (z % throttleStep n == 0)) = true
  · rw [if_pos h, if_pos h]
    rfl
  · rw [if_neg h, if_neg h]
    rfl

/-- A run whose remaining slices see no cancellation (except possibly during
the very last slice, after the final boundary check) completes all of them
and reports progress at every throttle point. -/
theorem sliceLoop_no_cancel (n : ℕ) (cd : ℕ → Bool) (cb : Bool) :
    ∀ (rem z : ℕ) (acc : List SDFEvent),
      (∀ j, z ≤ j → j + 1 < z + rem → cd j = false) →
      sliceLoop n cd cb rem z false acc
        = acc ++ progEvents n cb z rem ++ [SDFEvent.completed (z + rem)] := by
  intro rem
  induction rem with
  | zero =>
    intro z acc _
    rw [sliceLoop, progEvents_zero]
    simp
  | succ r ih =>
    intro z acc hcd
    rw [sliceLoop]
    simp only [Bool.false_eq_true, if_false, Bool.false_or]
    cases r with
    | zero =>
      rw [sliceLoop]
      rw [progEvents_succ, progEvents_zero]
      simp [List.append_assoc]
    | succ r' =>
      have hz : cd z = false := hcd z le_rfl (by omega)
      rw [hz]
      rw [ih (z + 1) _ (fun j hj1 hj2 => hcd j (by omega) (by omega))]
      conv_rhs => rw [progEvents_succ]
      have harith : z + 1 + (r' + 1) = z + (r' + 1 + 1) := by omega
      simp only [List.append_assoc, harith]

/-- A run whose first during-run cancellation happens at slice `k`, with at
least one boundary check remaining afterwards, completes slices up to and
including `k` (the slice in progress always finishes) and then throws the
cancellation at the `k+1` boundary. -/
theorem sliceLoop_cancel (n : ℕ) (cd : ℕ → Bool) (cb : Bool) :
    ∀ (rem z k : ℕ) (acc : List SDFEvent),
      z ≤ k → k + 1 < z + rem → cd k = true →
      (∀ j, z ≤ j → j < k → cd j = false) →
      sliceLoop n cd cb rem z false acc
        = acc ++ progEvents n cb z (k + 1 - z) ++ [SDFEvent.cancelled (k + 1)] := by
  intro rem
  induction rem with
  | zero => intro z k acc h1 h2 _ _; omega
  | succ r ih =>
    intro z k acc hzk hk hcdk hmin
    rw [sliceLoop]
    simp only [Bool.false_eq_true, if_false, Bool.false_or]
    by_cases hzek : z = k
    · subst hzek
      rw [hcdk]
      rw [sliceLoop_flag_true n cd cb r (z + 1) _ (by omega)]
      have h1 : z + 1 - z = 1 := by omega
      rw [h1, progEvents_succ, progEvents_zero]
      simp [List.append_assoc]
    · have hzk' : z < k := lt_of_le_of_ne hzk hzek
      have hz : cd z = false := hmin z le_rfl hzk'
      rw [hz]
      rw [ih (z + 1) k _ (by omega) (by omega) hcdk
        (fun j hj1 hj2 => hmin j (by omega) hj2)]
      have harith : k + 1 - z = (k + 1 - (z + 1)) + 1 := by omega
      conv_rhs => rw [harith, progEvents_succ]
      simp only [List.append_assoc]

/-- Every `generate` run splits as throttled progress reports for an initial
segment of slices followed by one terminal event. -/
theorem generateEvents_split (g : SDFGenState) (n : ℕ) (cd : ℕ → Bool) (cb : Bool) :
    ∃ len, len ≤ n ∧
      (generateEvents g n cd cb = progEvents n cb 0 len ++ [SDFEvent.completed len]
       ∨ generateEvents g n cd cb = progEvents n cb 0 len ++ [SDFEvent.cancelled len]) := by
  by_cases hex : ∃ k, k + 1 < n ∧ cd k = true
  · have hspec := Nat.find_spec hex
    set k0 := Nat.find hex with hk0
    refine ⟨k0 + 1, by omega, Or.inr ?_⟩
    unfold generateEvents
    have hmin : ∀ j, 0 ≤ j → j < k0 → cd j = false := by
      intro j _ hj
      have := Nat.find_min hex hj
      by_contra hcj
      exact this ⟨by omega, by simpa using hcj⟩
    have := sliceLoop_cancel n cd cb n 0 k0 [] (Nat.zero_le k0) (by omega) hspec.2 hmin
    simpa using this
  · push_neg at hex
    refine ⟨n, le_rfl, Or.inl ?_⟩
    unfold generateEvents
    have hcd : ∀ j, 0 ≤ j → j + 1 < 0 + n → cd j = false := by
      intro j _ hj
      have := hex j (by omega)
      simpa using this
    have := sliceLoop_no_cancel n cd cb n 0 [] hcd
    simpa using this

/-! ## Claim C3: cancellation semantics of generate -/

/-- Every event of `progEvents` is a progress report. -/
theorem progEvents_all_progress (n : ℕ) (cb : Bool) (z len : ℕ) (e : SDFEvent)
    (he : e ∈ progEvents n cb z len) : ∃ q, e = SDFEvent.progress q := by
  obtain ⟨i, _, rfl⟩ := List.mem_map.mp he
  exact ⟨_, rfl⟩

/-- C3 (amended): if `cancel()` is first invoked during slice `k` and at
least one boundary check remains (`k + 1 < n`), the run throws the
cancellation outcome at the `k+1` boundary — the slice in progress always
completes, and strictly fewer than `n` slices were done — and no completed
volume is ever produced by that run.  (If the cancel arrives during the
final slice, after the last boundary check, the run completes instead; see
the counterexample.) -/
theorem generate_cancelled_before_last (g : SDFGenState) (n : ℕ) (cd : ℕ → Bool)
    (cb : Bool) (k : ℕ) (hk : cd k = true) (hkn : k + 1 < n)
    (hmin : ∀ j, j < k → cd j = false) :
    generateEvents g n cd cb
      = progEvents n cb 0 (k + 1) ++ [SDFEvent.cancelled (k + 1)]
    ∧ (∀ d, SDFEvent.completed d ∉ generateEvents g n cd cb)
    ∧ k + 1 < n := by
  have heq : generateEvents g n cd cb
      = progEvents n cb 0 (k + 1) ++ [SDFEvent.cancelled (k + 1)] := by
    unfold generateEvents
    have := sliceLoop_cancel n cd cb n 0 k [] (Nat.zero_le k) (by omega) hk
      (fun j _ hj => hmin j hj)
    simpa using this
  refine ⟨heq, ?_, hkn⟩
  intro d hd
  rw [heq] at hd
  rcases List.mem_append.mp hd with h | h
  · obtain ⟨q, hq⟩ := progEvents_all_progress n cb 0 (k + 1) _ h
    exact SDFEvent.noConfusion hq
  · exact SDFEvent.noConfusion (List.mem_singleton.mp h)

/-- C3 witness: three slices, `cancel()` during slice 0 — the run reports
one progress fraction, finishes slice 0, then throws at the next boundary. -/
theorem generate_cancelled_before_last_witness :
    generateEvents ⟨1, false⟩ 3 (fun j => j == 0) true
      = progEvents 3 true 0 1 ++ [SDFEvent.cancelled 1] :=
  (generate_cancelled_before_last ⟨1, false⟩ 3 (fun j => j == 0) true 0 rfl
    (by omega) (fun j hj => absurd hj (Nat.not_lt_zero j))).1

/-- C3 counterexample: with a single slice (`n = 1`) and `cancel()` invoked
while that slice is in progress — realisable because `generate` suspends at
the `await` following the slice-0 progress report, letting the caller's
`cancel()` run before the loop resumes — no boundary check remains, so the
run does NOT fail: it completes and returns the volume, contradicting the
claim that a cancel during a running generate always produces a
cancellation outcome and never a complete volume. -/
theorem generate_cancel_last_slice_counterexample :
    ((fun j : ℕ => j == 0) 0 = true)
    ∧ generateEvents ⟨1, false⟩ 1 (fun j => j == 0) true
        = [SDFEvent.progress 1, SDFEvent.completed 1] := by
  constructor
  · rfl
  · simp only [generateEvents, sliceLoop, throttleStep]
    norm_num

/-! ## Claim C10: generate clears the cancellation flag on entry -/

/-- C10: `generate()` unconditionally clears `_cancel` at its start, so a
`cancel()` (or `dispose()`, which sets the same flag) issued before the call
has no effect on that run; and if no `cancel()` arrives during the run, the
call completes all `n` slices, whatever the prior flag state was. -/
theorem generate_resets_cancel_flag (g : SDFGenState) (n : ℕ) (cd : ℕ → Bool)
    (cb : Bool) :
    generateEvents (SDFGenState.cancel g) n cd cb = generateEvents g n cd cb
    ∧ generateEvents (SDFGenState.dispose g) n cd cb = generateEvents g n cd cb
    ∧ ((∀ j, cd j = false) →
        generateEvents g n cd cb
          = progEvents n cb 0 n ++ [SDFEvent.completed n]) := by
  refine ⟨rfl, rfl, fun hcd => ?_⟩
  unfold generateEvents
  have := sliceLoop_no_cancel n cd cb n 0 [] (fun j _ _ => hcd j)
  simpa using this

/-- C10 witness: a generator whose flag is already set (a pre-call
`cancel()`) still completes a two-slice run when no cancel arrives during
the run. -/
theorem generate_resets_cancel_flag_witness :
    generateEvents ⟨1, true⟩ 2 (fun _ => false) true
      = progEvents 2 true 0 2 ++ [SDFEvent.completed 2] :=
  (generate_resets_cancel_flag ⟨1, true⟩ 2 (fun _ => false) true).2.2 (fun _ => rfl)

/-! ## Claim C8: progress-reporting contract -/

theorem progressFracs_append (l1 l2 : List SDFEvent) :
    progressFracs (l1 ++ l2) = progressFracs l1 ++ progressFracs l2 :=
  List.filterMap_append l1 l2 _

theorem progressFracs_progEvents (n : ℕ) (cb : Bool) (z len : ℕ) :
    progressFracs (progEvents n cb z len)
      = ((List.range' z len).filter fun i => cb && (i % throttleStep n == 0)).map
          fun i : ℕ => ((i : ℚ) + 1) / (n : ℚ) := by
  unfold progEvents progressFracs
  rw [List.filterMap_map]
  exact congrFun (List.filterMap_eq_map fun i : ℕ => ((i : ℚ) + 1) / (n : ℚ)) _

/-- The reported fractions of a run prefix are strictly increasing. -/
theorem fracList_sorted (n len : ℕ) (cb : Bool) (hlen : len ≤ n) :
    (((List.range' 0 len).filter fun i => cb && (i % throttleStep n == 0)).map
      fun i : ℕ => ((i : ℚ) + 1) / (n : ℚ)).Pairwise (· < ·) := by
  rcases Nat.eq_zero_or_pos n with hn | hn
  · have hl : len = 0 := by omega
    subst hl
    simp
  · have hp : (List.range' 0 len).Pairwise (· < ·) := List.pairwise_lt_range' 0 len
    have hf := hp.filter (fun i => cb && (i % throttleStep n == 0))
    rw [List.pairwise_map]
    apply List.Pairwise.imp ?_ hf
    intro a b hab
    have hnq : (0 : ℚ) < n := by exact_mod_cast hn
    have hab' : ((a : ℚ) + 1) < ((b : ℚ) + 1) := by
      have : (a : ℚ) < b := by exact_mod_cast hab
      linarith
    exact div_lt_div_of_pos_right hab' hnq

/-- Exact number of throttle points among `n` slices. -/
theorem length_filter_mod (s : ℕ) (hs : 0 < s) :
    ∀ n : ℕ, ((List.range n).filter fun i => i % s == 0).length = (n + s - 1) / s := by
  intro n
  induction n with
  | zero =>
    have h0 : (s - 1) / s = 0 := Nat.div_eq_of_lt (by omega)
    simp [h0]
  | succ m ih =>
    rw [List.range_succ, List.filter_append, List.length_append, ih,
      List.filter_singleton]
    have hrhs : (m + 1 + s - 1) / s = m / s + 1 := by
      have h1 : m + 1 + s - 1 = m + s := by omega
      rw [h1, Nat.add_div_right _ hs]
    rw [hrhs]
    by_cases hm : m % s = 0
    · have hms : (m % s == 0) = true := by simp [hm]
      simp only [hms, cond_true, List.length_singleton]
      cases m with
      | zero =>
        have h0 : (0 + s - 1) / s = 0 := Nat.div_eq_of_lt (by omega)
        rw [h0]
        simp
      | succ m' =>
        have h1 : (m' + 1 + s - 1) / s = m' / s + 1 := by
          have h2 : m' + 1 + s - 1 = m' + s := by omega
          rw [h2, Nat.add_div_right _ hs]
        rw [h1, Nat.succ_div, if_pos (Nat.dvd_iff_mod_eq_zero.mpr hm)]
    · have hms : (m % s == 0) = false := by simp [hm]
      simp only [hms, cond_false, List.length_nil]
      cases m with
      | zero => simp at hm
      | succ m' =>
        have h1 : (m' + 1 + s - 1) / s = m' / s + 1 := by
          have h2 : m' + 1 + s - 1 = m' + s := by omega
          rw [h2, Nat.add_div_right _ hs]
        rw [h1, Nat.succ_div, if_neg (fun hd => hm (Nat.dvd_iff_mod_eq_zero.mp hd))]

/-- The throttle bounds the number of progress callbacks by 39 (the
worst case of `max(1, floor(n/20))`, at most twice the nominal 20). -/
theorem length_filter_mod_le (n : ℕ) :
    ((List.range n).filter fun i => i % throttleStep n == 0).length ≤ 39 := by
  have hs : 0 < throttleStep n := lt_of_lt_of_le one_pos (le_max_left _ _)
  rw [length_filter_mod (throttleStep n) hs n]
  have h1 : 1 ≤ throttleStep n := le_max_left _ _
  have h2 : n / 20 ≤ throttleStep n := le_max_right _ _
  have hlt : (n + throttleStep n - 1) / throttleStep n < 40 := by
    rw [Nat.div_lt_iff_lt_mul hs]
    omega
  omega

/-- C8: during a single `generate` run the reported fractions are strictly
increasing, all within `[0, 1]`, throttled to at most 39 callbacks (at most
twice the nominal 20 whatever `n` is), and no progress callback occurs
after the cancellation outcome: a cancelled trace ends at the cancellation
event. -/
theorem sdf_progress_reporting (g : SDFGenState) (n : ℕ) (cd : ℕ → Bool) (cb : Bool) :
    (progressFracs (generateEvents g n cd cb)).Pairwise (· < ·)
    ∧ (∀ q ∈ progressFracs (generateEvents g n cd cb), 0 ≤ q ∧ q ≤ 1)
    ∧ (progressFracs (generateEvents g n cd cb)).length ≤ 39
    ∧ (∀ l1 d l2, generateEvents g n cd cb = l1 ++ SDFEvent.cancelled d :: l2 →
        l2 = []) := by
  obtain ⟨len, hlen, hsplit⟩ := generateEvents_split g n cd cb
  have hterm : ∃ t, generateEvents g n cd cb = progEvents n cb 0 len ++ [t]
      ∧ ∀ q, t ≠ SDFEvent.progress q := by
    rcases hsplit with h | h
    · exact ⟨_, h, fun q h' => SDFEvent.noConfusion h'⟩
    · exact ⟨_, h, fun q h' => SDFEvent.noConfusion h'⟩
  obtain ⟨t, heq, ht⟩ := hterm
  have htnil : progressFracs [t] = [] := by
    cases t with
    | progress q => exact absurd rfl (ht q)
    | cancelled d => rfl
    | completed d => rfl
  have hfr : progressFracs (generateEvents g n cd cb)
      = ((List.range' 0 len).filter fun i => cb && (i % throttleStep n == 0)).map
          fun i : ℕ => ((i : ℚ) + 1) / (n : ℚ) := by
    rw [heq, progressFracs_append, progressFracs_progEvents, htnil, List.append_nil]
  refine ⟨?_, ?_, ?_, ?_⟩
  · rw [hfr]
    exact fracList_sorted n len cb hlen
  · rw [hfr]
    intro q hq
    obtain ⟨i, hi, rfl⟩ := List.mem_map.mp hq
    have hi' : i ∈ List.range' 0 len := List.mem_of_mem_filter hi
    have hilen : i < len := by
      have := List.mem_range'_1.mp hi'
      omega
    have hn : 0 < n := by omega
    have hnq : (0 : ℚ) < n := by exact_mod_cast hn
    constructor
    · positivity
    · rw [div_le_one hnq]
      exact_mod_cast (by omega : i + 1 ≤ n)
  · rw [hfr, List.length_map]
    have h1 : List.range' 0 len = List.range len := (List.range_eq_range' len).symm
    rw [h1]
    have hsub := ((List.range_sublist.mpr hlen).filter
      (fun i => cb && (i % throttleStep n == 0))).length_le
    refine le_trans hsub ?_
    cases cb with
    | false => simp
    | true =>
      simp only [Bool.true_and]
      exact length_filter_mod_le n
  · intro l1 d l2 hsplit2
    rcases List.eq_nil_or_concat l2 with h2 | ⟨l2', b, h2⟩
    · exact h2
    · rw [List.concat_eq_append] at h2
      subst h2
      have hco : progEvents n cb 0 len ++ [t]
          = (l1 ++ SDFEvent.cancelled d :: l2') ++ [b] := by
        rw [← heq, hsplit2]
        simp
      have hinj := List.append_inj' hco rfl
      have hmem : SDFEvent.cancelled d ∈ progEvents n cb 0 len := by
        rw [hinj.1]
        exact List.mem_append.mpr (Or.inr (List.mem_cons_self _ _))
      obtain ⟨q, hq⟩ := progEvents_all_progress n cb 0 len _ hmem
      exact SDFEvent.noConfusion hq

/-- C8 witness: a two-slice run cancelled during slice 0 reports the single
fraction 1/2, which indeed lies in `[0, 1]`. -/
theorem sdf_progress_reporting_witness : (0 : ℚ) ≤ 1 / 2 ∧ (1 : ℚ) / 2 ≤ 1 :=
  (sdf_progress_reporting ⟨1, false⟩ 2 (fun j => j == 0) true).2.1 (1 / 2)
    (by simp [generateEvents, sliceLoop, throttleStep, progressFracs])
